import Mathlib

/-
Verification of the two chat front-ends in this repository.

Embedded code:
  * `src/ibm-proj/frontend/src/App.js` — the streaming wellness chat screen
    (`sendMessage`, its line-delimited stream decoder, the fallback decode
    path, `handleTopicClick`, `clearChat`).
  * `src/src/App.js` — the static chat shell (`handleSend`).

Modelling conventions:
  * JavaScript strings are Lean `String`; all string primitives used by the
    code (`split('\n')`, `startsWith('data: ')`, `slice(6)`, `trim()`) are
    modelled explicitly on the underlying character list.
  * A JavaScript value that may be `undefined`/`null` is an `Option`.
  * `JSON.parse` is modelled by an executable JSON reader (`parseJsonText`);
    a parse exception is `none`.  JSON numbers are kept as their source
    lexeme (no claim depends on numeric values).
  * React state setters are modelled by explicit state passing: `DecState`
    carries the transcript, the local mutable draft variable
    `currentStreamingMsg`, and the published `streamingMessage` React state;
    `AppState` carries the full component state plus effect logs for toasts
    and issued network requests.
-/

/-! ## Data model (streaming wellness chat screen) -/

inductive Role where
  | user
  | assistant
deriving DecidableEq, Repr

/-- A finalized transcript entry, as built at `App.js` lines 63 and 197-204.
`none` models a `null`/`undefined` field. -/
structure Message where
  role : Role
  content : String
  thinking : Option String
  sources : Option (List String)
  webSources : Option (List String)
  webSearched : Option Bool
deriving DecidableEq, Repr

/-- The mutable in-progress draft `currentStreamingMsg` (`App.js` 69-77). -/
structure Draft where
  thinking : String
  content : String
  thinkingComplete : Bool
  sources : Option (List String)
  webSources : Option (List String)
  webSearched : Option Bool
deriving DecidableEq, Repr

/-- Initial draft value created at the start of a send (`App.js` 69-77). -/
def initDraft : Draft :=
  { thinking := ""
  , content := ""
  , thinkingComplete := false
  , sources := none
  , webSources := none
  , webSearched := some false }

/-- A transient notification raised through `toast.error` / `toast.success`. -/
inductive Toast where
  | error (msg : String)
  | success (msg : String)
deriving DecidableEq, Repr

/-- Body of the POST to `/chat/stream` (`App.js` 86-89); the JSON field
`use_web_search` is the `useWebSearch` field here. -/
structure ChatRequest where
  message : String
  useWebSearch : Bool
deriving DecidableEq, Repr

/-- A wellness topic (`GET /wellness-topics` entries). -/
structure Topic where
  id : String
  icon : String
  label : String
deriving DecidableEq, Repr

/-! ## JavaScript string primitives

The code manipulates strings with `split('\n')`, `startsWith`, `slice` and
`trim`; they are modelled on the character list of the Lean string. -/

/-- JS `s.split('\n')` on the character list: splitting on a separator
always yields at least one (possibly empty) piece. -/
def splitOnNlChars : List Char → List (List Char)
  | [] => [[]]
  | c :: cs =>
    match splitOnNlChars cs with
    | [] => [[c]]
    | l :: ls => if c = '\n' then [] :: l :: ls else (c :: l) :: ls

/-- JS `s.split('\n')`. -/
def jsSplitNl (s : String) : List String :=
  (splitOnNlChars s.data).map String.mk

/-- JS `s.startsWith(p)`. -/
def jsStartsWith (s p : String) : Bool :=
  p.data.isPrefixOf s.data

/-- JS `s.slice(n)` for a non-negative `n`. -/
def jsSlice (s : String) (n : Nat) : String :=
  String.mk (s.data.drop n)

/-- Whitespace stripped by JS `String.prototype.trim` (the ASCII cases; the
additional Unicode space code points are not used by any claim). -/
def isJsSpace (c : Char) : Bool :=
  c = ' ' || c = '\t' || c = '\n' || c = '\r' || c = '\x0b' || c = '\x0c'

def dropJsSpace : List Char → List Char
  | [] => []
  | c :: cs => if isJsSpace c then dropJsSpace cs else c :: cs

/-- JS `s.trim()`. -/
def jsTrim (s : String) : String :=
  String.mk ((dropJsSpace ((dropJsSpace s.data).reverse)).reverse)

/-! ## JSON values and `JSON.parse`

The stream decoder feeds each `data: ` payload to `JSON.parse` inside a
`try`/`catch`; a thrown parse error is modelled as `none`. -/

inductive Json where
  | null
  | bool (b : Bool)
  | num (lexeme : String)
  | str (s : String)
  | arr (elems : List Json)
  | obj (fields : List (String × Json))

/-- JSON whitespace. -/
def isJsonWs (c : Char) : Bool :=
  c = ' ' || c = '\t' || c = '\n' || c = '\r'

def skipJsonWs : List Char → List Char
  | [] => []
  | c :: cs => if isJsonWs c then skipJsonWs cs else c :: cs

def hexVal (c : Char) : Option Nat :=
  if '0' ≤ c ∧ c ≤ '9' then some (c.toNat - '0'.toNat)
  else if 'a' ≤ c ∧ c ≤ 'f' then some (c.toNat - 'a'.toNat + 10)
  else if 'A' ≤ c ∧ c ≤ 'F' then some (c.toNat - 'A'.toNat + 10)
  else none

def escMap (c : Char) : Option Char :=
  if c = '"' then some '"'
  else if c = '\\' then some '\\'
  else if c = '/' then some '/'
  else if c = 'b' then some '\x08'
  else if c = 'f' then some '\x0c'
  else if c = 'n' then some '\n'
  else if c = 'r' then some '\r'
  else if c = 't' then some '\t'
  else none

/-- Body of a JSON string literal after the opening quote; returns the decoded
characters and the remainder after the closing quote. -/
def parseStrBody : Nat → List Char → Option (List Char × List Char)
  | 0, _ => none
  | _, [] => none
  | fuel + 1, c :: cs =>
    if c = '"' then some ([], cs)
    else if c = '\\' then
      match cs with
      | [] => none
      | e :: cs2 =>
        if e = 'u' then
          match cs2 with
          | a :: b :: c3 :: d :: cs3 =>
            match hexVal a, hexVal b, hexVal c3, hexVal d with
            | some ha, some hb, some hc, some hd =>
              match parseStrBody fuel cs3 with
              | some (tail, rest) =>
                some (Char.ofNat (((ha * 16 + hb) * 16 + hc) * 16 + hd) :: tail, rest)
              | none => none
            | _, _, _, _ => none
          | _ => none
        else
          match escMap e with
          | some ec =>
            match parseStrBody fuel cs2 with
            | some (tail, rest) => some (ec :: tail, rest)
            | none => none
          | none => none
    else if c.toNat < 32 then none
    else
      match parseStrBody fuel cs with
      | some (tail, rest) => some (c :: tail, rest)
      | none => none

def takeDigits : List Char → List Char × List Char
  | [] => ([], [])
  | c :: cs =>
    if c.isDigit then
      let (d, r) := takeDigits cs
      (c :: d, r)
    else ([], c :: cs)

/-- JSON number lexeme: `-? int frac? exp?`; returns the lexeme characters
and the remainder. -/
def parseNumChars (cs : List Char) : Option (List Char × List Char) :=
  let (signPart, cs1) :=
    match cs with
    | '-' :: t => ([('-' : Char)], t)
    | _ => (([] : List Char), cs)
  match cs1 with
  | [] => none
  | c :: t =>
    if ¬ c.isDigit then none
    else
      let (intDigits, rest0) :=
        if c = '0' then ([c], t)
        else
          let (ds, r) := takeDigits t
          (c :: ds, r)
      let (fracPart, rest1) :=
        match rest0 with
        | '.' :: t2 =>
          let (ds2, r2) := takeDigits t2
          if ds2 = [] then (none, rest0) else (some ('.' :: ds2), r2)
        | _ => (none, rest0)
      match fracPart, rest0 with
      | none, '.' :: _ => none
      | _, _ =>
        let fracChars := fracPart.getD []
        match rest1 with
        | e :: t3 =>
          if e = 'e' ∨ e = 'E' then
            let (signChars, t4) :=
              match t3 with
              | '+' :: u => ([('+' : Char)], u)
              | '-' :: u => ([('-' : Char)], u)
              | _ => (([] : List Char), t3)
            let (ds3, r3) := takeDigits t4
            if ds3 = [] then none
            else some (signPart ++ intDigits ++ fracChars ++ e :: signChars ++ ds3, r3)
          else some (signPart ++ intDigits ++ fracChars, rest1)
        | [] => some (signPart ++ intDigits ++ fracChars, [])

mutual

/-- A JSON value (leading whitespace allowed); fuel-driven recursive descent.
Each recursive step consumes at least one character, so fuel larger than the
input length never runs out on it. -/
def parseVal : Nat → List Char → Option (Json × List Char)
  | 0, _ => none
  | fuel + 1, cs =>
    match skipJsonWs cs with
    | [] => none
    | c :: cs' =>
      if c = '\x7b' then
        match skipJsonWs cs' with
        | d :: ds => if d = '\x7d' then some (.obj [], ds) else parseMembers fuel (d :: ds) []
        | [] => none
      else if c = '[' then
        match skipJsonWs cs' with
        | d :: ds => if d = ']' then some (.arr [], ds) else parseElems fuel (d :: ds) []
        | [] => none
      else if c = '"' then
        match parseStrBody (cs'.length + 1) cs' with
        | some (body, rest) => some (.str (String.mk body), rest)
        | none => none
      else if c = 't' then
        match cs' with
        | 'r' :: 'u' :: 'e' :: rest => some (.bool true, rest)
        | _ => none
      else if c = 'f' then
        match cs' with
        | 'a' :: 'l' :: 's' :: 'e' :: rest => some (.bool false, rest)
        | _ => none
      else if c = 'n' then
        match cs' with
        | 'u' :: 'l' :: 'l' :: rest => some (.null, rest)
        | _ => none
      else if c = '-' ∨ c.isDigit then
        match parseNumChars (c :: cs') with
        | some (lex, rest) => some (.num (String.mk lex), rest)
        | none => none
      else none

/-- Members of a JSON object after the opening brace (object known nonempty). -/
def parseMembers : Nat → List Char → List (String × Json) → Option (Json × List Char)
  | 0, _, _ => none
  | fuel + 1, cs, acc =>
    match skipJsonWs cs with
    | '"' :: cs1 =>
      match parseStrBody (cs1.length + 1) cs1 with
      | some (key, cs2) =>
        match skipJsonWs cs2 with
        | ':' :: cs3 =>
          match parseVal fuel cs3 with
          | some (v, cs4) =>
            let acc' := acc ++ [(String.mk key, v)]
            match skipJsonWs cs4 with
            | ',' :: cs5 => parseMembers fuel cs5 acc'
            | d :: cs5 => if d = '\x7d' then some (.obj acc', cs5) else none
            | [] => none
          | none => none
        | _ => none
      | none => none
    | _ => none

/-- Elements of a JSON array after the opening bracket (array known nonempty). -/
def parseElems : Nat → List Char → List Json → Option (Json × List Char)
  | 0, _, _ => none
  | fuel + 1, cs, acc =>
    match parseVal fuel cs with
    | some (v, rest) =>
      match skipJsonWs rest with
      | ',' :: cs2 => parseElems fuel cs2 (acc ++ [v])
      | d :: cs2 => if d = ']' then some (.arr (acc ++ [v]), cs2) else none
      | [] => none
    | none => none

end

/-- `JSON.parse`: one value, then only trailing whitespace; anything else
throws, modelled as `none`. -/
def parseJsonText (s : String) : Option Json :=
  match parseVal (s.data.length + 1) s.data with
  | some (v, rest) => if skipJsonWs rest = [] then some v else none
  | none => none

/-! ## Reading event fields off the parsed JSON value -/

/-- JS property lookup on an object literal built by `JSON.parse`: a
duplicated key keeps its last occurrence. -/
def lookupLast : List (String × Json) → String → Option Json
  | [], _ => none
  | (k, v) :: rest, key =>
    match lookupLast rest key with
    | some r => some r
    | none => if k = key then some v else none

/-- JS `data.f`: `undefined` (here `none`) unless `data` is an object with
the field.  (Field access on `null` throws, but the throw is caught by the
same `catch` that skips the line, so the net effect agrees with `none`.) -/
def getField (j : Json) (key : String) : Option Json :=
  match j with
  | .obj fields => lookupLast fields key
  | _ => none

mutual

/-- JS string coercion `String(v)` of a JSON value, as used by
`currentStreamingMsg.thinking += data.content`.  Number lexemes are kept
verbatim (JS would re-format them; no claim involves numeric content). -/
def jsToStr : Json → String
  | .null => "null"
  | .bool true => "true"
  | .bool false => "false"
  | .num lexeme => lexeme
  | .str s => s
  | .arr es => String.intercalate "," (jsToStrElems es)
  | .obj _ => "[object Object]"

/-- Array elements under JS `Array.prototype.toString`: `null` elements
become empty strings. -/
def jsToStrElems : List Json → List String
  | [] => []
  | .null :: js => "" :: jsToStrElems js
  | j :: js => jsToStr j :: jsToStrElems js

end

/-- The string appended by `x += data.content` (absent field gives the JS
string `"undefined"`). -/
def contentOf (j : Json) : String :=
  match getField j "content" with
  | some v => jsToStr v
  | none => "undefined"

def strListOf : List Json → Option (List String)
  | [] => some []
  | .str s :: js =>
    match strListOf js with
    | some r => some (s :: r)
    | none => none
  | _ => none

/-- A metadata field that the protocol types as a string array; a missing or
`null` field — and any non-conforming shape, which no claim exercises — is
`none`. -/
def getStrListField (j : Json) (key : String) : Option (List String) :=
  match getField j key with
  | some (.arr es) => strListOf es
  | _ => none

def getBoolField (j : Json) (key : String) : Option Bool :=
  match getField j key with
  | some (.bool b) => some b
  | _ => none

/-! ## Stream events -/

/-- The decoded stream events dispatched on `data.type`
(`App.js` 172-206).  `unknown` covers every other `type` value (and non-object
payloads), for which no branch of the if-chain fires. -/
inductive StreamEvent where
  | thinkingStart
  | thinking (content : String)
  | thinkingEnd
  | responseStart
  | response (content : String)
  | responseEnd
  | metadata (sources : Option (List String)) (webSources : Option (List String))
      (webSearched : Option Bool)
  | done
  | unknown
deriving DecidableEq, Repr

/-- Dispatch of a parsed payload on its `type` field. -/
def eventOfJson (j : Json) : StreamEvent :=
  match getField j "type" with
  | some (.str "thinking_start") => .thinkingStart
  | some (.str "thinking") => .thinking (contentOf j)
  | some (.str "thinking_end") => .thinkingEnd
  | some (.str "response_start") => .responseStart
  | some (.str "response") => .response (contentOf j)
  | some (.str "response_end") => .responseEnd
  | some (.str "metadata") =>
      .metadata (getStrListField j "sources") (getStrListField j "web_sources")
        (getBoolField j "web_searched")
  | some (.str "done") => .done
  | _ => .unknown

/-- `JSON.parse` of one `data: ` payload followed by the `type` dispatch;
`none` is a thrown-and-caught parse error. -/
def parseEventLine (payload : String) : Option StreamEvent :=
  (parseJsonText payload).map eventOfJson

/-! ## The stream decoder state machine

`DecState` is the state visible to the decode loop: the transcript
(`messages`), the local mutable variable `currentStreamingMsg`, and the
React state `streamingMessage` published through `setStreamingMessage`. -/

structure DecState where
  messages : List Message
  current : Draft
  streamingMessage : Option Draft
deriving DecidableEq, Repr

/-- Conversion of the draft into an immutable `Message` on a `done` event
(`App.js` 197-204); `thinking || null` turns an empty thinking string into
`null`. -/
def finalizeDraft (d : Draft) : Message :=
  { role := .assistant
  , content := d.content
  , thinking := if d.thinking = "" then none else some d.thinking
  , sources := d.sources
  , webSources := d.webSources
  , webSearched := d.webSearched }

/-- Effect of one decoded event on the decoder state: the if-chain of the
streaming loop (`App.js` 172-206).  Note that the `done` branch nulls only
the published `streamingMessage`; the local `currentStreamingMsg` variable
is left as it was. -/
def applyEvent (e : StreamEvent) (st : DecState) : DecState :=
  match e with
  | .thinkingStart => st
  | .thinking c =>
    let cur := { st.current with thinking := st.current.thinking ++ c }
    { st with current := cur, streamingMessage := some cur }
  | .thinkingEnd =>
    let cur := { st.current with thinkingComplete := true }
    { st with current := cur, streamingMessage := some cur }
  | .responseStart => st
  | .response c =>
    let cur := { st.current with content := st.current.content ++ c }
    { st with current := cur, streamingMessage := some cur }
  | .responseEnd => st
  | .metadata s ws wsd =>
    let cur := { st.current with sources := s, webSources := ws, webSearched := wsd }
    { st with current := cur, streamingMessage := some cur }
  | .done =>
    { st with messages := st.messages ++ [finalizeDraft st.current]
            , streamingMessage := none }
  | .unknown => st

/-- The fallback decode path (`App.js` 118-142) repeats the same handlers but
writes no branches for `thinking_start`, `response_start`, `response_end`;
those types fall through with no state change. -/
def applyEventFb (e : StreamEvent) (st : DecState) : DecState :=
  match e with
  | .thinking c =>
    let cur := { st.current with thinking := st.current.thinking ++ c }
    { st with current := cur, streamingMessage := some cur }
  | .thinkingEnd =>
    let cur := { st.current with thinkingComplete := true }
    { st with current := cur, streamingMessage := some cur }
  | .response c =>
    let cur := { st.current with content := st.current.content ++ c }
    { st with current := cur, streamingMessage := some cur }
  | .metadata s ws wsd =>
    let cur := { st.current with sources := s, webSources := ws, webSearched := wsd }
    { st with current := cur, streamingMessage := some cur }
  | .done =>
    { st with messages := st.messages ++ [finalizeDraft st.current]
            , streamingMessage := none }
  | _ => st

/-- One line of the streaming loop (`App.js` 167-210): only lines with the
literal `data: ` prefix are considered; the payload after `slice(6)` goes to
`JSON.parse`, and a thrown parse error is caught and skipped. -/
def processLine (st : DecState) (line : String) : DecState :=
  if jsStartsWith line "data: " then
    match parseEventLine (jsSlice line 6) with
    | some e => applyEvent e st
    | none => st
  else st

/-- One line of the fallback path (`App.js` 113-146). -/
def processLineFb (st : DecState) (line : String) : DecState :=
  if jsStartsWith line "data: " then
    match parseEventLine (jsSlice line 6) with
    | some e => applyEventFb e st
    | none => st
  else st

/-- One decoded chunk (`App.js` 163-211): split on newline, then each line in
order. -/
def processChunk (st : DecState) (chunk : String) : DecState :=
  (jsSplitNl chunk).foldl processLine st

/-- The incremental streaming loop over the delivered chunks
(`App.js` 156-212). -/
def processStream (st : DecState) (chunks : List String) : DecState :=
  chunks.foldl processChunk st

/-- The fallback path (`App.js` 110-147): the whole response text split on
newline, each line replayed synchronously. -/
def processFallback (st : DecState) (full : String) : DecState :=
  (jsSplitNl full).foldl processLineFb st

/-- A pure event run, for stating properties of event sequences. -/
def processEvents (st : DecState) (evs : List StreamEvent) : DecState :=
  evs.foldl (fun s e => applyEvent e s) st

/-- Decoder state at the start of a send: empty draft, published as the
React `streamingMessage` (`App.js` 69-78). -/
def initDec (msgs : List Message) : DecState :=
  { messages := msgs, current := initDraft, streamingMessage := some initDraft }

/-! ## The send operation -/

/-- Component state of the wellness chat screen, with effect logs for
notifications and issued network requests. -/
structure AppState where
  messages : List Message
  inputMessage : String
  isLoading : Bool
  topics : List Topic
  streamingMessage : Option Draft
  toasts : List Toast
  requests : List ChatRequest
deriving DecidableEq, Repr

/-- How the `fetch` of a send resolves, covering the control paths of
`App.js` 80-219: the promise rejects; the response is not ok (line 92
throws); the body reader works and delivers text chunks until done;
`getReader()` throws and `response.text()` yields the whole payload; or
`getReader()` and `response.text()` both throw (line 150 rethrows). -/
inductive FetchResult where
  | reject
  | respNotOk
  | okStream (chunks : List String)
  | okNoReader (fullText : String)
  | okNoReaderTextFails
deriving DecidableEq, Repr

def isErrorResult : FetchResult → Bool
  | .reject => true
  | .respNotOk => true
  | .okNoReaderTextFails => true
  | _ => false

/-- The user entry appended before the request (`App.js` 63). -/
def userMessage (text : String) : Message :=
  { role := .user, content := text, thinking := none, sources := none
  , webSources := none, webSearched := none }

def sendErrorToast : Toast := .error "Unable to get response. Please try again."

/-- `sendMessage` (`App.js` 60-220): the empty-after-trim guard; the
synchronous user append, input clear, loading flag and fresh draft; the POST;
then per fetch outcome the streaming loop, the fallback path, or the `catch`
block (error toast, draft discarded), with the `finally` clearing the
loading flag on every path past the guard. -/
def sendMessage (fr : FetchResult) (messageText : String) (st : AppState) : AppState :=
  if jsTrim messageText = "" then st
  else
    let st1 : AppState :=
      { st with messages := st.messages ++ [userMessage messageText]
              , inputMessage := ""
              , isLoading := true
              , streamingMessage := some initDraft
              , requests := st.requests ++ [{ message := messageText, useWebSearch := false }] }
    match fr with
    | .reject | .respNotOk | .okNoReaderTextFails =>
      { st1 with toasts := st1.toasts ++ [sendErrorToast]
               , streamingMessage := none
               , isLoading := false }
    | .okStream chunks =>
      let d := processStream (initDec st1.messages) chunks
      { st1 with messages := d.messages
               , streamingMessage := d.streamingMessage
               , isLoading := false }
    | .okNoReader fullText =>
      let d := processFallback (initDec st1.messages) fullText
      { st1 with messages := d.messages
               , streamingMessage := d.streamingMessage
               , isLoading := false }

/-- `clearChat` (`App.js` 241-245). -/
def clearChat (st : AppState) : AppState :=
  { st with messages := []
          , streamingMessage := none
          , toasts := st.toasts ++ [.success "Conversation cleared"] }

/-! ## Topic shortcut click -/

/-- The canned question map (`App.js` 223-230); indexing with any other id
yields JS `undefined`, here `none`. -/
def topicQuestions (id : String) : Option String :=
  if id = "nutrition" then some "What are some general healthy eating guidelines?"
  else if id = "exercise" then some "How much exercise should I get weekly?"
  else if id = "sleep" then some "What are good sleep hygiene practices?"
  else if id = "stress" then some "What are some healthy ways to manage stress?"
  else if id = "hydration" then some "How much water should I drink daily?"
  else if id = "checkup" then some "How often should I get routine health checkups?"
  else none

/-- The body of `sendMessage` applied to its (possibly `undefined`) string
argument: `messageText.trim()` on `undefined` throws a TypeError before any
state change. -/
def sendMessageOnArg (fr : FetchResult) (messageText : Option String) (st : AppState) :
    Except String AppState :=
  match messageText with
  | none => .error "TypeError"
  | some t => .ok (sendMessage fr t st)

/-- A JS call `sendMessage(v)` with the declared default parameter
`messageText = inputMessage` (`App.js` 60): passing `undefined` substitutes
the current input value. -/
def callSendMessage (fr : FetchResult) (arg : Option String) (st : AppState) :
    Except String AppState :=
  sendMessageOnArg fr (some (arg.getD st.inputMessage)) st

/-- `handleTopicClick` (`App.js` 222-232). -/
def handleTopicClick (fr : FetchResult) (topicId : String) (st : AppState) :
    Except String AppState :=
  callSendMessage fr (topicQuestions topicId) st

/-! ## Static chat shell (`src/src/App.js`) -/

/-- A message of the third-party chat list: its `type`, the `content.text`
payload, and the optional `position`. -/
structure ShellMsg where
  type : String
  text : String
  position : Option String
deriving DecidableEq, Repr

/-- State of the static shell: the transcript, the pending `setTimeout`
callbacks as (delay in ms, message to append), and a log of issued network
requests — the component performs none. -/
structure ShellState where
  messages : List ShellMsg
  pending : List (Nat × ShellMsg)
  requests : List String
deriving DecidableEq, Repr

/-- The hard-coded simulated reply (`src/src/App.js` 18-21). -/
def shellReply : ShellMsg :=
  { type := "text"
  , text := "Hello! I\x27m your health assistant. How can I help you today?"
  , position := none }

/-- `handleSend` (`src/src/App.js` 8-24): on a `"text"` send with truthy
trimmed value, append the right-positioned user bubble and schedule the
canned reply after 1000ms; otherwise do nothing. -/
def handleSend (msgType val : String) (st : ShellState) : ShellState :=
  if msgType = "text" ∧ jsTrim val ≠ "" then
    { st with messages := st.messages ++ [{ type := "text", text := val, position := some "right" }]
            , pending := st.pending ++ [(1000, shellReply)] }
  else st

/-- Firing of the earliest pending `setTimeout` callback: the scheduled
message is appended. -/
def fireTimeout (st : ShellState) : ShellState :=
  match st.pending with
  | [] => st
  | (_, m) :: rest => { st with messages := st.messages ++ [m], pending := rest }

/-! ## Basic string and list lemmas -/

theorem strMkData (s : String) : String.mk s.data = s := by
  cases s
  rfl

theorem strAppendEmpty (s : String) : s ++ "" = s := by
  cases s with
  | mk d => exact congrArg String.mk (List.append_nil d)

theorem strEmptyAppend (s : String) : "" ++ s = s := by
  cases s
  rfl

theorem strAppendAssoc (a b c : String) : a ++ b ++ c = a ++ (b ++ c) := by
  cases a
  cases b
  cases c
  exact congrArg String.mk (List.append_assoc _ _ _)

def sampleState : AppState :=
  { messages := [], inputMessage := "draft text", isLoading := false, topics := []
  , streamingMessage := none, toasts := [], requests := [] }

def emptyInputState : AppState :=
  { messages := [], inputMessage := "", isLoading := false, topics := []
  , streamingMessage := none, toasts := [], requests := [] }

def helloInputState : AppState :=
  { messages := [], inputMessage := "hello", isLoading := false, topics := []
  , streamingMessage := none, toasts := [], requests := [] }

def shellState0 : ShellState := { messages := [], pending := [], requests := [] }

/-! ## C6 — metadata events overwrite -/

/-- C6: for every draft state and every `metadata` event, applying the event
overwrites (does not merge) the draft's `sources`, `webSources` and
`webSearched`, republishing the draft, and a second `metadata` event replaces
the values set by the first. -/
theorem metadata_overwrite (st : DecState) (s ws : Option (List String)) (wsd : Option Bool)
    (s2 ws2 : Option (List String)) (wsd2 : Option Bool) :
    ((applyEvent (.metadata s ws wsd) st).current.sources = s
      ∧ (applyEvent (.metadata s ws wsd) st).current.webSources = ws
      ∧ (applyEvent (.metadata s ws wsd) st).current.webSearched = wsd
      ∧ (applyEvent (.metadata s ws wsd) st).streamingMessage
          = some (applyEvent (.metadata s ws wsd) st).current
      ∧ (applyEvent (.metadata s ws wsd) st).messages = st.messages)
    ∧ applyEvent (.metadata s ws wsd) (applyEvent (.metadata s2 ws2 wsd2) st)
        = applyEvent (.metadata s ws wsd) st :=
  ⟨⟨rfl, rfl, rfl, rfl, rfl⟩, rfl⟩

/-! ## C2 — effect of the `done` event -/

/-- C2 (amended): a `done` event converts the draft into an immutable Message,
appends it to the transcript and nulls the published draft; but it is not
terminal — the local draft variable is retained, so a later `response` event
republishes the mutated draft, and a second `done` appends a second Message. -/
theorem done_event_effect (st : DecState) (c : String) :
    (applyEvent .done st).messages = st.messages ++ [finalizeDraft st.current]
    ∧ (applyEvent .done st).streamingMessage = none
    ∧ (applyEvent .done st).current = st.current
    ∧ (applyEvent (.response c) (applyEvent .done st)).streamingMessage
        = some { st.current with content := st.current.content ++ c }
    ∧ (applyEvent .done (applyEvent .done st)).messages
        = st.messages ++ [finalizeDraft st.current] ++ [finalizeDraft st.current] :=
  ⟨rfl, rfl, rfl, rfl, rfl⟩

/-- C2 counterexample: after `done`, a further `response` event changes the
published draft (from `none` back to a value), and a second `done` appends a
second transcript entry. -/
theorem event_after_done_cex :
    (processEvents (initDec []) [.done, .response "x"]).streamingMessage
        ≠ (processEvents (initDec []) [.done]).streamingMessage
    ∧ (processEvents (initDec []) [.done, .done]).messages.length = 2 := by
  decide

/-! ## C7 — empty-after-trim guard -/

/-- C7: a send whose text trims to the empty string changes no component
state: no user message, no draft, no network request, no toast. -/
theorem empty_input_noop (fr : FetchResult) (t : String) (st : AppState)
    (h : jsTrim t = "") : sendMessage fr t st = st := by
  unfold sendMessage
  rw [if_pos h]

/-- C7 witness at a whitespace-only input. -/
theorem empty_input_noop_witness :
    jsTrim " \t " = "" ∧ sendMessage .reject " \t " sampleState = sampleState :=
  ⟨by decide, empty_input_noop .reject " \t " sampleState (by decide)⟩

/-! ## C4 — error handling on a failed send -/

/-- C4: when the send throws (fetch rejection, non-ok status, or the rethrown
fallback read failure), the user sees the error toast, the draft is discarded
with no partial assistant message — the transcript gains exactly the prior
user message — and the loading flag is false on exit of every outcome. -/
theorem send_error_handling (fr : FetchResult) (t : String) (st : AppState)
    (ht : ¬ jsTrim t = "") (hfr : isErrorResult fr = true) :
    sendMessage fr t st =
      { st with messages := st.messages ++ [userMessage t]
              , inputMessage := ""
              , isLoading := false
              , streamingMessage := none
              , toasts := st.toasts ++ [sendErrorToast]
              , requests := st.requests ++ [{ message := t, useWebSearch := false }] }
    ∧ ∀ fr2 : FetchResult, (sendMessage fr2 t st).isLoading = false := by
  constructor
  · cases fr with
    | reject => unfold sendMessage; rw [if_neg ht]
    | respNotOk => unfold sendMessage; rw [if_neg ht]
    | okNoReaderTextFails => unfold sendMessage; rw [if_neg ht]
    | okStream chunks => exact absurd hfr (by simp [isErrorResult])
    | okNoReader s => exact absurd hfr (by simp [isErrorResult])
  · intro fr2
    cases fr2 <;> simp [sendMessage, if_neg ht]

/-- C4 witness: a concrete rejected send from a concrete state. -/
theorem send_error_handling_witness :
    (¬ jsTrim "hello" = "")
    ∧ sendMessage .reject "hello" sampleState =
        { sampleState with
            messages := sampleState.messages ++ [userMessage "hello"]
          , inputMessage := ""
          , isLoading := false
          , streamingMessage := none
          , toasts := sampleState.toasts ++ [sendErrorToast]
          , requests := sampleState.requests ++ [{ message := "hello", useWebSearch := false }] }
    ∧ (sendMessage (.okStream []) "hello" sampleState).isLoading = false :=
  ⟨by decide,
   (send_error_handling .reject "hello" sampleState (by decide) rfl).1,
   (send_error_handling .reject "hello" sampleState (by decide) rfl).2 (.okStream [])⟩

/-! ## C9 — the static chat shell -/

/-- C9: in the static shell, a `"text"` send with a non-whitespace value
appends the right-positioned user bubble and schedules exactly the one
hard-coded reply after 1000ms; firing the timeout appends that reply; the
request log is untouched (no network call); any other send changes
nothing. -/
theorem shell_send_behavior (msgType val : String) (st : ShellState) :
    (msgType = "text" → jsTrim val ≠ "" →
      handleSend msgType val st =
        { st with
            messages := st.messages ++ [{ type := "text", text := val, position := some "right" }]
          , pending := st.pending ++ [(1000, shellReply)] }
      ∧ fireTimeout (handleSend msgType val
            { messages := st.messages, pending := [], requests := st.requests }) =
          { messages := st.messages ++ [{ type := "text", text := val, position := some "right" }, shellReply]
          , pending := []
          , requests := st.requests })
    ∧ (¬ (msgType = "text" ∧ jsTrim val ≠ "") → handleSend msgType val st = st) := by
  constructor
  · intro h1 h2
    have hc : msgType = "text" ∧ jsTrim val ≠ "" := ⟨h1, h2⟩
    constructor
    · unfold handleSend
      rw [if_pos hc]
    · unfold handleSend
      rw [if_pos hc]
      simp [fireTimeout]
  · intro h
    unfold handleSend
    rw [if_neg h]

/-- C9 witness: a concrete text send, and a concrete non-text send that is a
no-op. -/
theorem shell_send_behavior_witness :
    jsTrim "Hi" ≠ ""
    ∧ (handleSend "text" "Hi" shellState0 =
        { shellState0 with
            messages := shellState0.messages ++ [{ type := "text", text := "Hi", position := some "right" }]
          , pending := shellState0.pending ++ [(1000, shellReply)] }
      ∧ fireTimeout (handleSend "text" "Hi"
            { messages := shellState0.messages, pending := [], requests := shellState0.requests }) =
          { messages := shellState0.messages ++ [{ type := "text", text := "Hi", position := some "right" }, shellReply]
          , pending := []
          , requests := shellState0.requests })
    ∧ handleSend "image" "Hi" shellState0 = shellState0 :=
  ⟨by decide,
   (shell_send_behavior "text" "Hi" shellState0).1 rfl (by decide),
   (shell_send_behavior "image" "Hi" shellState0).2 (by decide)⟩

/-! ## C10 — topic click dispatch -/

/-- C10 (amended): a topic click calls `sendMessage` with the mapped canned
question when the id is one of the six known ids; for any other id the lookup
is `undefined`, so the declared default parameter substitutes the current
input text and the send proceeds on that string — no TypeError is ever
thrown (with an empty input the guard then makes it a no-op). -/
theorem topic_click_dispatch (fr : FetchResult) (id : String) (st : AppState) :
    handleTopicClick fr id st
      = .ok (sendMessage fr ((topicQuestions id).getD st.inputMessage) st)
    ∧ ((topicQuestions id).isSome = true
        ↔ id ∈ ["nutrition", "exercise", "sleep", "stress", "hydration", "checkup"]) := by
  constructor
  · rfl
  · unfold topicQuestions
    repeat' split
    all_goals simp_all

/-- C10 counterexample: clicking a topic whose id is `"weather"` does not
throw — with an empty input the call returns the state unchanged, and with
input `"hello"` it actually modifies state (it sends the typed text). -/
theorem topic_click_unknown_cex :
    (handleTopicClick .reject "weather" emptyInputState).toOption = some emptyInputState
    ∧ (handleTopicClick .reject "weather" helloInputState).toOption.map
        (fun s => s.messages) = some [userMessage "hello"] := by
  decide

/-! ## C8 — the transcript is append-only; Clear resets it -/

theorem applyEvent_append (e : StreamEvent) (st : DecState) :
    ∃ tail, (applyEvent e st).messages = st.messages ++ tail := by
  cases e with
  | done => exact ⟨[finalizeDraft st.current], rfl⟩
  | _ => exact ⟨[], by simp [applyEvent]⟩

theorem foldl_append_only {α : Type} (f : DecState → α → DecState)
    (hf : ∀ s a, ∃ t, (f s a).messages = s.messages ++ t) :
    ∀ (l : List α) (st : DecState), ∃ t, (l.foldl f st).messages = st.messages ++ t := by
  intro l
  induction l with
  | nil => exact fun st => ⟨[], by simp⟩
  | cons a l ih =>
    intro st
    obtain ⟨t1, h1⟩ := hf st a
    obtain ⟨t2, h2⟩ := ih (f st a)
    exact ⟨t1 ++ t2, by simp [h2, h1]⟩

theorem processLine_append (st : DecState) (line : String) :
    ∃ tail, (processLine st line).messages = st.messages ++ tail := by
  unfold processLine
  split
  · cases h : parseEventLine (jsSlice line 6) with
    | some e => simpa [h] using applyEvent_append e st
    | none => exact ⟨[], by simp [h]⟩
  · exact ⟨[], by simp⟩

theorem applyEventFb_eq (e : StreamEvent) (st : DecState) :
    applyEventFb e st = applyEvent e st := by
  cases e <;> rfl

theorem processLineFb_append (st : DecState) (line : String) :
    ∃ tail, (processLineFb st line).messages = st.messages ++ tail := by
  unfold processLineFb
  split
  · cases h : parseEventLine (jsSlice line 6) with
    | some e => simpa [h, applyEventFb_eq] using applyEvent_append e st
    | none => exact ⟨[], by simp [h]⟩
  · exact ⟨[], by simp⟩

theorem processChunk_append (st : DecState) (chunk : String) :
    ∃ tail, (processChunk st chunk).messages = st.messages ++ tail :=
  foldl_append_only processLine processLine_append (jsSplitNl chunk) st

theorem processStream_append (st : DecState) (chunks : List String) :
    ∃ tail, (processStream st chunks).messages = st.messages ++ tail :=
  foldl_append_only processChunk processChunk_append chunks st

theorem processFallback_append (st : DecState) (full : String) :
    ∃ tail, (processFallback st full).messages = st.messages ++ tail :=
  foldl_append_only processLineFb processLineFb_append (jsSplitNl full) st

theorem sendMessage_append (fr : FetchResult) (t : String) (st : AppState) :
    ∃ tail, (sendMessage fr t st).messages = st.messages ++ tail := by
  unfold sendMessage
  split
  · exact ⟨[], by simp⟩
  · cases fr with
    | reject => exact ⟨[userMessage t], rfl⟩
    | respNotOk => exact ⟨[userMessage t], rfl⟩
    | okNoReaderTextFails => exact ⟨[userMessage t], rfl⟩
    | okStream chunks =>
      obtain ⟨t2, h2⟩ := processStream_append (initDec (st.messages ++ [userMessage t])) chunks
      refine ⟨[userMessage t] ++ t2, ?_⟩
      simp only [initDec] at h2 ⊢
      rw [h2]
      simp
    | okNoReader s =>
      obtain ⟨t2, h2⟩ := processFallback_append (initDec (st.messages ++ [userMessage t])) s
      refine ⟨[userMessage t] ++ t2, ?_⟩
      simp only [initDec] at h2 ⊢
      rw [h2]
      simp

/-- C8: across every operation of the streaming screen, the transcript only
grows at the end — a send (in any fetch outcome, including full stream
decodes) and a topic click never mutate or remove an existing entry — while
`clearChat`, from any state, resets the transcript to empty and the draft to
`null`. -/
theorem transcript_append_only :
    (∀ (fr : FetchResult) (t : String) (st : AppState),
      ∃ tail, (sendMessage fr t st).messages = st.messages ++ tail)
    ∧ (∀ (fr : FetchResult) (id : String) (st : AppState),
      ∃ s2 tail, handleTopicClick fr id st = .ok s2 ∧ s2.messages = st.messages ++ tail)
    ∧ (∀ st : AppState, (clearChat st).messages = [] ∧ (clearChat st).streamingMessage = none) := by
  refine ⟨sendMessage_append, ?_, fun st => ⟨rfl, rfl⟩⟩
  intro fr id st
  obtain ⟨tail, h⟩ := sendMessage_append fr ((topicQuestions id).getD st.inputMessage) st
  exact ⟨_, tail, rfl, h⟩

/-! ## C1 — content and thinking concatenation -/

/-- The `response` contribution of an event. -/
def respPiece : StreamEvent → String
  | .response c => c
  | _ => ""

/-- The `thinking` contribution of an event. -/
def thinkPiece : StreamEvent → String
  | .thinking c => c
  | _ => ""

def strJoin : List String → String
  | [] => ""
  | s :: rest => s ++ strJoin rest

/-- Concatenation of all `response` event contents, in arrival order. -/
def respConcat (evs : List StreamEvent) : String := strJoin (evs.map respPiece)

/-- Concatenation of all `thinking` event contents, in arrival order. -/
def thinkConcat (evs : List StreamEvent) : String := strJoin (evs.map thinkPiece)

def isTextEvent : StreamEvent → Bool
  | .thinking _ => true
  | .response _ => true
  | _ => false

theorem text_run (evs : List StreamEvent) (h : ∀ e ∈ evs, isTextEvent e = true) :
    ∀ st : DecState,
      (processEvents st evs).messages = st.messages
      ∧ (processEvents st evs).current.content = st.current.content ++ respConcat evs
      ∧ (processEvents st evs).current.thinking = st.current.thinking ++ thinkConcat evs
      ∧ (processEvents st evs).current.thinkingComplete = st.current.thinkingComplete
      ∧ (processEvents st evs).current.sources = st.current.sources
      ∧ (processEvents st evs).current.webSources = st.current.webSources
      ∧ (processEvents st evs).current.webSearched = st.current.webSearched := by
  induction evs with
  | nil =>
    intro st
    refine ⟨rfl, ?_, ?_, rfl, rfl, rfl, rfl⟩ <;>
      simp [processEvents, respConcat, thinkConcat, strJoin, strAppendEmpty]
  | cons e evs ih =>
    intro st
    have he := h e (by simp)
    have h' : ∀ x ∈ evs, isTextEvent x = true := fun x hx => h x (by simp [hx])
    have hstep : processEvents st (e :: evs) = processEvents (applyEvent e st) evs := rfl
    cases e with
    | thinking c =>
      obtain ⟨m, co, th, tc, so, ws, wsd⟩ := ih h' (applyEvent (.thinking c) st)
      rw [hstep]
      refine ⟨m, ?_, ?_, tc, so, ws, wsd⟩
      · rw [co]
        simp [applyEvent, respConcat, respPiece, strJoin, strEmptyAppend]
      · rw [th]
        simp [applyEvent, thinkConcat, thinkPiece, strJoin, strAppendAssoc]
    | response c =>
      obtain ⟨m, co, th, tc, so, ws, wsd⟩ := ih h' (applyEvent (.response c) st)
      rw [hstep]
      refine ⟨m, ?_, ?_, tc, so, ws, wsd⟩
      · rw [co]
        simp [applyEvent, respConcat, respPiece, strJoin, strAppendAssoc]
      · rw [th]
        simp [applyEvent, thinkConcat, thinkPiece, strJoin, strEmptyAppend]
    | thinkingStart => exact absurd he (by simp [isTextEvent])
    | thinkingEnd => exact absurd he (by simp [isTextEvent])
    | responseStart => exact absurd he (by simp [isTextEvent])
    | responseEnd => exact absurd he (by simp [isTextEvent])
    | metadata s2 ws2 wsd2 => exact absurd he (by simp [isTextEvent])
    | done => exact absurd he (by simp [isTextEvent])
    | unknown => exact absurd he (by simp [isTextEvent])

/-- C1 (amended): a run of `thinking`/`response` events followed by `done`
appends exactly one assistant Message whose `content` is the concatenation of
the `response` contents in arrival order and whose `thinking` is the
concatenation of the `thinking` contents when that is nonempty, and `null`
when it is empty — in particular when no `thinking` event arrived. -/
theorem stream_message_concat (evs : List StreamEvent) (msgs0 : List Message)
    (h : ∀ e ∈ evs, isTextEvent e = true) :
    (processEvents (initDec msgs0) (evs ++ [.done])).messages
      = msgs0 ++ [{ role := .assistant
                  , content := respConcat evs
                  , thinking := if thinkConcat evs = "" then none else some (thinkConcat evs)
                  , sources := none
                  , webSources := none
                  , webSearched := some false }] := by
  have hsplit : processEvents (initDec msgs0) (evs ++ [.done])
      = applyEvent .done (processEvents (initDec msgs0) evs) := by
    simp [processEvents, List.foldl_append]
  obtain ⟨m, co, th, tc, so, ws, wsd⟩ := text_run evs h (initDec msgs0)
  rw [hsplit]
  show (processEvents (initDec msgs0) evs).messages
      ++ [finalizeDraft (processEvents (initDec msgs0) evs).current] = _
  rw [m]
  simp only [initDec] at m co th tc so ws wsd ⊢
  simp only [finalizeDraft, co, th, tc, so, ws, wsd]
  simp [initDraft, strEmptyAppend]

/-- C1 witness: the spec example prefixed with a thinking delta. -/
theorem stream_message_concat_witness :
    (∀ e ∈ [StreamEvent.thinking "T", .response "Hi", .response " there"], isTextEvent e = true)
    ∧ (processEvents (initDec [])
        ([StreamEvent.thinking "T", .response "Hi", .response " there"] ++ [.done])).messages
      = [] ++ [{ role := .assistant
               , content := respConcat [StreamEvent.thinking "T", .response "Hi", .response " there"]
               , thinking :=
                  if thinkConcat [StreamEvent.thinking "T", .response "Hi", .response " there"] = ""
                  then none
                  else some (thinkConcat [StreamEvent.thinking "T", .response "Hi", .response " there"])
               , sources := none
               , webSources := none
               , webSearched := some false }] :=
  ⟨by decide, stream_message_concat _ [] (by decide)⟩

/-- C1 counterexample: a `thinking` event with empty content arrives, so the
claim requires `thinking` to equal the (empty) concatenation, but the code
stores `null` instead (`thinking || null`). -/
theorem stream_thinking_empty_cex :
    (processEvents (initDec []) [.thinking "", .done]).messages.map Message.thinking = [none]
    ∧ ([none] : List (Option String)) ≠ [some ""] := by
  decide

/-! ## Chunk-boundary lemmas for the decoder -/

theorem splitOnNl_no_nl (cs : List Char) (h : '\n' ∉ cs) : splitOnNlChars cs = [cs] := by
  induction cs with
  | nil => rfl
  | cons c cs ih =>
    have hc : ¬ c = '\n' := fun e => h (by simp [e])
    have h' : '\n' ∉ cs := fun m => h (by simp [m])
    simp [splitOnNlChars, ih h', hc]

theorem jsSplitNl_no_nl (s : String) (h : '\n' ∉ s.data) : jsSplitNl s = [s] := by
  unfold jsSplitNl
  rw [splitOnNl_no_nl s.data h]
  simp [strMkData]

/-- C5 (amended): the decoder handles each chunk strictly line by line with no
buffering across chunk boundaries — a line without the `data: ` prefix causes
no state change; a `data: ` line whose payload fails `JSON.parse` is skipped
without aborting the fold over the remaining lines; and a line split across a
chunk boundary (at any position) is not reassembled: each fragment is
processed as its own line, which produces no state change whenever each
fragment either lacks the `data: ` prefix or carries a payload that is not
itself valid JSON.  (A fragment that happens to be a well-formed event line
does fire; see the counterexample.) -/
theorem line_decoder_behavior (st : DecState) (line A B : String) :
    (¬ jsStartsWith line "data: " = true → processLine st line = st)
    ∧ (jsStartsWith line "data: " = true → parseEventLine (jsSlice line 6) = none →
        processLine st line = st
        ∧ ∀ rest : List String, (line :: rest).foldl processLine st = rest.foldl processLine st)
    ∧ ((¬ jsStartsWith A "data: " = true ∨ parseEventLine (jsSlice A 6) = none) →
        (¬ jsStartsWith B "data: " = true ∨ parseEventLine (jsSlice B 6) = none) →
        '\n' ∉ A.data → '\n' ∉ B.data →
        processStream st [A, B] = st) := by
  have hskip : ∀ (s : DecState) (l : String),
      parseEventLine (jsSlice l 6) = none → processLine s l = s := by
    intro s l hp
    unfold processLine
    split
    · rw [hp]
    · rfl
  have hnostart : ∀ (s : DecState) (l : String),
      ¬ jsStartsWith l "data: " = true → processLine s l = s := by
    intro s l hp
    unfold processLine
    rw [if_neg hp]
  have hnoop : ∀ (s : DecState) (l : String),
      (¬ jsStartsWith l "data: " = true ∨ parseEventLine (jsSlice l 6) = none) →
      processLine s l = s := by
    intro s l h
    cases h with
    | inl h => exact hnostart s l h
    | inr h => exact hskip s l h
  refine ⟨hnostart st line,
          fun _ h2 => ⟨hskip st line h2, fun rest => ?_⟩,
          fun hA hB hAn hBn => ?_⟩
  · show rest.foldl processLine (processLine st line) = rest.foldl processLine st
    rw [hskip st line h2]
  · show processChunk (processChunk st A) B = st
    have cA : processChunk st A = st := by
      unfold processChunk
      rw [jsSplitNl_no_nl A hAn]
      show processLine st A = st
      exact hnoop st A hA
    have cB : processChunk st B = st := by
      unfold processChunk
      rw [jsSplitNl_no_nl B hBn]
      show processLine st B = st
      exact hnoop st B hB
    rw [cA, cB]

/-- C5 witness: a non-`data:` line, a malformed `data:` line followed by a
still-applied later event, a `data:` line split after the prefix, and the
same full line split inside the prefix — each pair of fragments changes
nothing. -/
theorem line_decoder_behavior_witness :
    (¬ jsStartsWith "event: ping" "data: " = true)
    ∧ processLine (initDec []) "event: ping" = initDec []
    ∧ jsStartsWith "data: notjson" "data: " = true
    ∧ parseEventLine (jsSlice "data: notjson" 6) = none
    ∧ processLine (initDec []) "data: notjson" = initDec []
    ∧ (["data: notjson", "data: \x7b\"type\":\"done\"\x7d"].foldl processLine (initDec [])
        = ["data: \x7b\"type\":\"done\"\x7d"].foldl processLine (initDec []))
    ∧ processStream (initDec []) ["data: \x7b\"type\":\"response\"", ",\"content\":\"Hi\"\x7d"]
        = initDec []
    ∧ processStream (initDec []) ["dat", "a: \x7b\"type\":\"done\"\x7d"] = initDec [] :=
  ⟨by decide,
   (line_decoder_behavior (initDec []) "event: ping" "" "").1 (by decide),
   by decide,
   by decide,
   ((line_decoder_behavior (initDec []) "data: notjson" "" "").2.1 (by decide) (by decide)).1,
   ((line_decoder_behavior (initDec []) "data: notjson" "" "").2.1 (by decide) (by decide)).2
     ["data: \x7b\"type\":\"done\"\x7d"],
   (line_decoder_behavior (initDec [])
      "" "data: \x7b\"type\":\"response\"" ",\"content\":\"Hi\"\x7d").2.2
     (Or.inr (by decide)) (Or.inl (by decide)) (by decide) (by decide),
   (line_decoder_behavior (initDec []) "" "dat" "a: \x7b\"type\":\"done\"\x7d").2.2
     (Or.inl (by decide)) (Or.inl (by decide)) (by decide) (by decide)⟩

/-- C5 counterexample: a valid `data: ` line whose payload carries a trailing
space, split right after the JSON object — the leading fragment alone is a
well-formed event line, so it fires `done` and changes state, contrary to
the claim that a split line produces no state change from either fragment. -/
theorem split_line_fragment_fires_cex :
    parseEventLine (jsSlice ("data: \x7b\"type\":\"done\"\x7d" ++ " ") 6) = some .done
    ∧ (processStream (initDec []) ["data: \x7b\"type\":\"done\"\x7d", " "]).messages.length = 1
    ∧ processStream (initDec []) ["data: \x7b\"type\":\"done\"\x7d", " "] ≠ initDec [] := by
  decide
